import Mathlib

/-!
Shallow embedding of the table widget of digital-michael/fyne-components
(Go packages `pkg/table` plus the unnamed table widget file), restricted to
the state, projection, sorting, filtering, selection, editing and input
routing logic that the verified properties talk about.

Modelling conventions:
* Go `int` is `Int`; slice/array indices are kept as `Int` exactly as the
  source keeps them, with explicit range guards translated from the source.
* `map[int]bool` used as a set of selected rows is modelled as a duplicate
  free `List Int` (only `true` entries are ever stored by the source).
* Row values are an arbitrary type `α`. The reflection based field lookup
  helpers (`Table.extractFieldValue` in the widget file and
  `extractFieldString` in config.go) cannot be reflected into Lean, so the
  configuration carries them as explicit functions `α → String → String`;
  for plain string rows the reflection helpers return the string itself,
  which the concrete instances below mirror.
* Go's `regexp` package is external to the repository; it is abstracted as
  a `RegexEngine` record with a `compile` step that can fail (returning
  `none` exactly when `regexp.Compile` returns an error) and a match
  predicate.
* `sort.Slice` is external; it is modelled by `List.mergeSort`, a
  deterministic comparison sort satisfying `sort.Slice`'s contract
  (a permutation of the input, ordered so that for consecutive elements
  `x`, `y` the `less y x` test is false).
* Callbacks and the logger are observed through an event trace: each
  operation returns the new table together with the list of Warn/Error log
  calls and callback invocations it performs, in order. Info/Debug level
  logging is purely diagnostic in the source and is not traced. Fyne widget
  calls (`Refresh`, `Select`, focus and canvas plumbing) are host-toolkit
  UI operations with no effect on the modelled state.
-/

namespace FCTable

/-- Observable effects of a table operation: Warn/Error log calls and
invocations of the user supplied callbacks (`OnRowSelected`,
`OnCellEdited`, `OnViewData`, `OnCheckboxChanged`). -/
inductive Event where
  | logWarn (msg : String)
  | logError (msg : String)
  | rowSelected (row : Int)
  | cellEdited (row : Int) (colID : String) (newValue : String)
  | viewData (action : String) (colID : String) (row : Int) (col : Int)
  | checkboxChanged (row : Int) (newValue : Bool)
  deriving Repr, DecidableEq

/-- Abstraction of Go's `regexp` package: `compile` returns `none` exactly
when `regexp.Compile` returns an error for that pattern, and `matchString`
is `Regexp.MatchString`. -/
structure RegexEngine (ρ : Type) where
  compile : String → Option ρ
  matchString : ρ → String → Bool

/-- Length of a list as a Go `int`. -/
def lenI (l : List β) : Int := Int.ofNat l.length

/-- Index a list with a Go `int`, returning `dflt` out of range. The source
only indexes after an explicit range guard, so the default is never
reachable from guarded code. -/
def getI (l : List β) (i : Int) (dflt : β) : β :=
  if h : 0 ≤ i ∧ i.toNat < l.length then l.get ⟨i.toNat, h.2⟩ else dflt

/-- Position of the first occurrence of `x` in `l`, `-1` if absent: the
`for`-loop search pattern used throughout keyboard.go and the widget file. -/
def findPos (l : List Int) (x : Int) : Int :=
  match l.findIdx? (fun y => y == x) with
  | some i => Int.ofNat i
  | none => -1

/-- Whether `pre` occurs at the head of `l`. -/
def leadsWith [BEq β] : List β → List β → Bool
  | [], _ => true
  | _ :: _, [] => false
  | a :: as, b :: bs => a == b && leadsWith as bs

/-- Whether `needle` occurs as a contiguous subsequence of `l`. -/
def containsSeq [BEq β] (needle : List β) : List β → Bool
  | [] => needle.isEmpty
  | x :: xs => leadsWith needle (x :: xs) || containsSeq needle xs

/-- Go `strings.Contains s sub`. -/
def goContains (s sub : String) : Bool :=
  containsSeq sub.toList s.toList

/-- Character-wise lowering of a character list. -/
def lowerChars : List Char → List Char
  | [] => []
  | c :: cs => c.toLower :: lowerChars cs

/-- Go `strings.ToLower` (the widget is only exercised on ASCII text, where
Go's Unicode lowering and `Char.toLower` agree). -/
def goToLower (s : String) : String :=
  String.mk (lowerChars s.data)

/-- Insert into the `List Int` model of a `map[int]bool` set. -/
def setInsert (l : List Int) (x : Int) : List Int :=
  if l.contains x then l else l ++ [x]

/-- Column descriptor (config.go `ColumnConfig`), restricted to the fields
the verified logic reads. Function-typed callbacks whose results matter are
`Option`s of functions (Go `nil` is `none`); callbacks observed only
through the event trace are presence flags `hasOn...`. -/
structure ColumnConfig (α : Type) where
  id : String := ""
  title : String := ""
  sortable : Bool := false
  editable : Bool := false
  readOnly : Bool := false
  hidden : Bool := false
  comparator : Option (α → α → Int) := none
  popupOptions : Option (α → List String) := none
  hasOnPopupSelected : Bool := false
  showCheckbox : Bool := false
  getCheckboxValue : Option (α → Bool) := none
  hasOnCheckboxChanged : Bool := false
  hasOnViewData : Bool := false

instance : Inhabited (ColumnConfig α) := ⟨{}⟩

/-- Table configuration (config.go `Config`), restricted to the fields the
verified logic reads, plus the two reflection based field extractors as
explicit functions. -/
structure Config (α : Type) where
  columns : List (ColumnConfig α) := []
  allowMultiSelect : Bool := false
  rowSelectOnlyMode : Bool := true
  selectFirstCellOnStartup : Bool := false
  filterColumns : List String := []
  maxDepth : Int := 0
  getNodeDepth : Option (α → Int) := none
  hasOnRowSelected : Bool := false
  hasOnCellEdited : Bool := false
  extractFieldValue : α → String → String
  extractFieldString : α → String → String

/-- Runtime state (state.go `TableState`). Field defaults are the values
set by `NewTableState`. -/
structure TableState where
  visibleColumns : List Int := []
  visibleRows : List Int := []
  sortColumn : Int := -1
  sortAsc : Bool := true
  hasFocus : Bool := false
  filterText : String := ""
  filterRegex : Bool := false
  filterCaseSensitive : Bool := false
  selectedRow : Int := -1
  selectedCol : Int := -1
  selectedRows : List Int := []
  editingRow : Int := -1
  editingCol : Int := -1
  editingValue : String := ""
  isKeyboardNavigation : Bool := false
  isReselecting : Bool := false
  deriving Repr, DecidableEq

/-- state.go `NewTableState`. -/
def NewTableState : TableState := {}

/-- The widget (the `Table` struct of the unnamed widget file): config,
backing data and runtime state. The embedded Fyne widgets are UI objects
with no modelled state; the source always creates the inner table in
`NewTable`, so its nil-guards are vacuous here. -/
structure Table (α : Type) where
  config : Config α
  data : List α := []
  state : TableState := {}

/-- state.go `HasSelection`. -/
def TableState.HasSelection (s : TableState) : Bool :=
  s.selectedRow ≥ 0 || s.selectedRows.length > 0

/-- state.go `ClearSelection`. -/
def TableState.ClearSelection (s : TableState) : TableState :=
  { s with selectedRow := -1, selectedCol := -1, selectedRows := [] }

/-- state.go `GetSelectedRows`: the multi-select set when non-empty, else
the single selection. (Go map iteration order is unspecified; the list
order stands in for one iteration order.) -/
def TableState.GetSelectedRows (s : TableState) : List Int :=
  if s.selectedRows.length > 0 then s.selectedRows
  else if s.selectedRow ≥ 0 then [s.selectedRow] else []

/-- state.go `SetSelectedRows`: rebuild the set from the non-negative
entries and clear the single-select row. -/
def TableState.SetSelectedRows (s : TableState) (rows : List Int) : TableState :=
  { s with
    selectedRows := rows.foldl (fun acc r => if r ≥ 0 then setInsert acc r else acc) [],
    selectedRow := -1 }

/-- state.go `AddSelectedRow`. -/
def TableState.AddSelectedRow (s : TableState) (row : Int) : TableState :=
  if row ≥ 0 then
    { s with selectedRows := setInsert s.selectedRows row, selectedRow := -1 }
  else s

/-- state.go `RemoveSelectedRow`. -/
def TableState.RemoveSelectedRow (s : TableState) (row : Int) : TableState :=
  { s with selectedRows := s.selectedRows.filter (fun r => r != row) }

/-- state.go `IsRowSelected`. -/
def TableState.IsRowSelected (s : TableState) (row : Int) : Bool :=
  if s.selectedRows.length > 0 then s.selectedRows.contains row
  else s.selectedRow == row

/-- state.go `GetSelectionCount`. -/
def TableState.GetSelectionCount (s : TableState) : Int :=
  if s.selectedRows.length > 0 then lenI s.selectedRows
  else if s.selectedRow ≥ 0 then 1 else 0

/-- state.go `IsEditing`. -/
def TableState.IsEditing (s : TableState) : Bool :=
  s.editingRow ≥ 0 && s.editingCol ≥ 0

/-- state.go `ClearEdit`. -/
def TableState.ClearEdit (s : TableState) : TableState :=
  { s with editingRow := -1, editingCol := -1, editingValue := "" }

/-- state.go `HasFilter`. -/
def TableState.HasFilter (s : TableState) : Bool :=
  s.filterText ≠ ""

/-- state.go `ClearFilter`: clears the text, the regex flag AND the
case-sensitivity flag. -/
def TableState.ClearFilter (s : TableState) : TableState :=
  { s with filterText := "", filterRegex := false, filterCaseSensitive := false }

/-- The regex pattern actually compiled by `RebuildVisibleRows`: the filter
text, prefixed with the case-insensitivity flag unless matching is
case-sensitive. -/
def effectivePattern (st : TableState) : String :=
  if ¬ st.filterCaseSensitive then "(?i)" ++ st.filterText else st.filterText

/-- Plain text substring branch of the row filter in `RebuildVisibleRows`:
`strings.Contains`, lower-casing both sides unless case-sensitive. -/
def plainMatch (st : TableState) (fieldValue : String) : Bool :=
  if st.filterCaseSensitive then goContains fieldValue st.filterText
  else goContains (goToLower fieldValue) (goToLower st.filterText)

/-- One cell's text filter test in `RebuildVisibleRows`: the compiled regex
is used only when the regex flag is on AND compilation succeeded
(`st.state.filterRegex && filterRegex != nil`); otherwise the plain
substring branch runs. -/
def textMatch (eng : RegexEngine ρ) (st : TableState) (compiled : Option ρ)
    (fieldValue : String) : Bool :=
  match compiled, st.filterRegex with
  | some r, true => eng.matchString r fieldValue
  | some _, false => plainMatch st fieldValue
  | none, _ => plainMatch st fieldValue

/-- The per-row inclusion predicate of `RebuildVisibleRows`: when a filter
text and at least one filter column are configured, some filter column's
extracted value must pass `textMatch`; independently, when `MaxDepth > 0`
and a depth accessor is configured, the node depth must be below the
maximum. -/
def rowPasses (eng : RegexEngine ρ) (cfg : Config α) (st : TableState)
    (compiled : Option ρ) (item : α) : Bool :=
  (if st.filterText ≠ "" ∧ cfg.filterColumns.length > 0 then
     cfg.filterColumns.any (fun colID =>
       textMatch eng st compiled (cfg.extractFieldValue item colID))
   else true)
  &&
  (if cfg.maxDepth > 0 then
     match cfg.getNodeDepth with
     | some getDepth => decide (getDepth item < cfg.maxDepth)
     | none => true
   else true)

/-- The regex compilation step of `RebuildVisibleRows`: only attempted
when the filter text is non-empty and regex mode is on; a compile error is
logged at Error level and leaves the compiled regex nil. -/
def compileFilter (eng : RegexEngine ρ) (st : TableState) : Option ρ × List Event :=
  if st.filterText ≠ "" ∧ st.filterRegex then
    match eng.compile (effectivePattern st) with
    | some r => (some r, [])
    | none => (none, [Event.logError "Invalid regex filter"])
  else (none, [])

/-- Widget file `RebuildVisibleRows` (lines 503-570): compile the filter
regex, then scan all data rows in index order, keeping the indices that
pass the filter and the depth limit. -/
def Table.RebuildVisibleRows (eng : RegexEngine ρ) (t : Table α) :
    Table α × List Event :=
  let compiled := compileFilter eng t.state
  let vis : List Int :=
    ((t.data.enum).filter
        (fun p => rowPasses eng t.config t.state compiled.fst p.snd)).map
      (fun p => Int.ofNat p.fst)
  ({ t with state := { t.state with visibleRows := vis } }, compiled.snd)

/-- Widget file `GetSelectedCell`. -/
def Table.GetSelectedCell (t : Table α) : Int × Int :=
  (t.state.selectedRow, t.state.selectedCol)

/-- Widget file `GetEditingState`. -/
def Table.GetEditingState (t : Table α) : Bool :=
  t.state.editingRow ≥ 0 && t.state.editingCol ≥ 0

/-- Widget file `SetSelectedCell` (lines 627-640): a row outside the data
range is rejected with an Error log and no state change; otherwise the
row AND the column argument are stored as given — the column is not
validated. -/
def Table.SetSelectedCell (t : Table α) (row col : Int) : Table α × List Event :=
  if row < 0 ∨ row ≥ lenI t.data then
    (t, [Event.logError "SetSelectedCell: invalid row"])
  else
    ({ t with state := { t.state with selectedRow := row, selectedCol := col } }, [])

/-- Widget file `SetSelectedRows`: delegates to the state method. -/
def Table.SetSelectedRows (t : Table α) (rows : List Int) : Table α × List Event :=
  ({ t with state := t.state.SetSelectedRows rows }, [])

/-- Widget file `ClearSelection`: delegates to the state method. -/
def Table.ClearSelection (t : Table α) : Table α × List Event :=
  ({ t with state := t.state.ClearSelection }, [])

/-- Widget file `GetFilter`. -/
def Table.GetFilter (t : Table α) : String × Bool :=
  (t.state.filterText, t.state.filterRegex)

/-- Widget file `SetFilter` (lines 713-726): store the text and regex flag,
then rebuild the visible rows. -/
def Table.SetFilter (eng : RegexEngine ρ) (t : Table α)
    (filterText : String) (useRegex : Bool) : Table α × List Event :=
  Table.RebuildVisibleRows eng
    { t with state := { t.state with filterText := filterText, filterRegex := useRegex } }

/-- Widget file `SetFilterCaseSensitive`: store the flag and rebuild only
when a filter text is active. -/
def Table.SetFilterCaseSensitive (eng : RegexEngine ρ) (t : Table α)
    (caseSensitive : Bool) : Table α × List Event :=
  let t1 := { t with state := { t.state with filterCaseSensitive := caseSensitive } }
  if t1.state.filterText ≠ "" then Table.RebuildVisibleRows eng t1 else (t1, [])

/-- Widget file `ClearFilter` (lines 749-752): just `SetFilter("", false)` —
unlike `TableState.ClearFilter` it does not touch the case flag. -/
def Table.ClearFilter (eng : RegexEngine ρ) (t : Table α) : Table α × List Event :=
  Table.SetFilter eng t "" false

/-- config.go `NewStringComparator`: extract the field from both rows and
compare the strings lexicographically. -/
def NewStringComparator (extractS : α → String → String) (fieldName : String) :
    α → α → Int :=
  fun a b =>
    let valA := extractS a fieldName
    let valB := extractS b fieldName
    if valA < valB then -1 else if valB < valA then 1 else 0

/-- Model of Go `sort.Slice data less`: a deterministic comparison sort
producing a permutation of the input ordered so that `less y x` is false
for consecutive `x`, `y`. -/
def sortSlice (l : List α) (less : α → α → Bool) : List α :=
  List.mergeSort l (fun x y => ! less y x)

/-- The comparator `sortData` sorts with: the sort column's custom
comparator when present, else the default string comparator on the
column id. -/
def Table.effComparator [Inhabited α] (t : Table α) : α → α → Int :=
  let col := getI t.config.columns t.state.sortColumn default
  match col.comparator with
  | some c => c
  | none => NewStringComparator t.config.extractFieldString col.id

/-- The `less` closure passed to `sort.Slice` in `sortData`: comparator
sign below zero ascending, above zero descending. -/
def Table.sortLess [Inhabited α] (t : Table α) : α → α → Bool :=
  fun x y =>
    if t.state.sortAsc then decide (Table.effComparator t x y < 0)
    else decide (Table.effComparator t x y > 0)

/-- Widget file `sortData` (lines 1152-1183): no-op when the sort column is
unset or out of range, otherwise sort the backing data in place with the
effective comparator and direction. -/
def Table.sortData [Inhabited α] (t : Table α) : Table α × List Event :=
  if t.state.sortColumn < 0 ∨ t.state.sortColumn ≥ lenI t.config.columns then (t, [])
  else ({ t with data := sortSlice t.data (Table.sortLess t) }, [])

/-- Widget file `SetData` (lines 677-697): replace the backing data,
re-apply the current sort when a sort column is set and in range, rebuild
the visible rows, and auto-select the first cell when configured. -/
def Table.SetData [Inhabited α] (eng : RegexEngine ρ) (t : Table α) (d : List α) :
    Table α × List Event :=
  let t1 := { t with data := d }
  let step2 : Table α × List Event :=
    if t1.state.sortColumn ≥ 0 ∧ t1.state.sortColumn < lenI t1.config.columns then
      Table.sortData t1
    else (t1, [])
  let step3 := Table.RebuildVisibleRows eng step2.fst
  let step4 : Table α × List Event :=
    if step3.fst.config.selectFirstCellOnStartup ∧ d.length > 0 ∧
        step3.fst.state.visibleColumns.length > 0 then
      Table.SetSelectedCell step3.fst 0 (getI step3.fst.state.visibleColumns 0 0)
    else (step3.fst, [])
  (step4.fst, step2.snd ++ step3.snd ++ step4.snd)

/-- Widget file `GetData`. -/
def Table.GetData (t : Table α) : List α := t.data

/-- Widget file `isColumnReadOnly`: out-of-range columns count as
read-only. -/
def Table.isColumnReadOnly [Inhabited α] (t : Table α) (col : Int) : Bool :=
  if col < 0 ∨ col ≥ lenI t.config.columns then true
  else (getI t.config.columns col default).readOnly

/-- Widget file `startEdit` (lines 1186-1227): record the edit session and
the original field value; when the column is not among the visible columns
the session is aborted with an Error log (the captured value is left
behind, as in the source). -/
def Table.startEdit [Inhabited α] (t : Table α) (dataIndex colIndex : Int) :
    Table α × List Event :=
  let item := getI t.data dataIndex default
  let colID := (getI t.config.columns colIndex default).id
  let s1 := { t.state with
    editingRow := dataIndex, editingCol := colIndex,
    editingValue := t.config.extractFieldValue item colID }
  if findPos t.state.visibleColumns colIndex < 0 then
    ({ t with state := { s1 with editingRow := -1, editingCol := -1 } },
     [Event.logError "column not in visibleColumns, cannot edit"])
  else
    ({ t with state := s1 }, [])

/-- Widget file `cancelEdit` (lines 1276-1306): fire the column's
`OnViewData` callback with action "escape" when configured and the edited
cell is in range, clear the edit session without touching the data, then
restore selection to the edited cell via `SetSelectedCell`. -/
def Table.cancelEdit [Inhabited α] (t : Table α) : Table α × List Event :=
  let editedRow := t.state.editingRow
  let editedCol := t.state.editingCol
  let escapeEvents : List Event :=
    if 0 ≤ editedCol ∧ editedCol < lenI t.config.columns then
      let col := getI t.config.columns editedCol default
      if col.hasOnViewData ∧ 0 ≤ editedRow ∧ editedRow < lenI t.data then
        [Event.viewData "escape" col.id editedRow editedCol]
      else []
    else []
  let t1 := { t with state := { t.state with
    editingRow := -1, editingCol := -1, editingValue := "" } }
  let restored := Table.SetSelectedCell t1 editedRow editedCol
  (restored.fst, escapeEvents ++ restored.snd)

/-- Widget file `showPopupMenu`: builds and shows a transient Fyne popup
menu. Menu-item callbacks only fire on a later user click, so at call time
the table state is unchanged; the only modelled observable is the Warn log
when the column is not visible (canvas/table availability is host-toolkit
environment, modelled as present). -/
def Table.showPopupMenu (t : Table α) (rowIndex colIndex : Int)
    (options : List String) : Table α × List Event :=
  let _ := rowIndex
  let _ := options
  if findPos t.state.visibleColumns colIndex < 0 then
    (t, [Event.logWarn "popup column not visible"])
  else (t, [])

/-- Truth rendering used when reporting a checkbox value to
`OnCellEdited`. -/
def boolText (b : Bool) : String := if b then "true" else "false"

/-- mouse.go `activateInteractiveCell` (lines 131-198): after range and
read-only guards, an option-popup cell (with options available) shows the
popup; otherwise a checkbox cell toggles its value, firing
`OnCheckboxChanged` and, when configured, `OnCellEdited`, and force-restores
the selection cursor to the activated cell. -/
def Table.activateInteractiveCell [Inhabited α] (t : Table α)
    (rowIndex colIndex : Int) : Table α × List Event :=
  if rowIndex < 0 ∨ rowIndex ≥ lenI t.data then (t, [])
  else if colIndex < 0 ∨ colIndex ≥ lenI t.config.columns then (t, [])
  else if Table.isColumnReadOnly t colIndex then (t, [])
  else
    let col := getI t.config.columns colIndex default
    let dataItem := getI t.data rowIndex default
    let popupShown : Option (Table α × List Event) :=
      if col.popupOptions.isSome ∧ col.hasOnPopupSelected then
        let options := (col.popupOptions.getD (fun _ => [])) dataItem
        if options.length > 0 then some (Table.showPopupMenu t rowIndex colIndex options)
        else none
      else none
    match popupShown with
    | some r => r
    | none =>
      if col.showCheckbox ∧ col.getCheckboxValue.isSome ∧ col.hasOnCheckboxChanged then
        let currentValue := (col.getCheckboxValue.getD (fun _ => false)) dataItem
        let newValue := ! currentValue
        let events := Event.checkboxChanged rowIndex newValue ::
          (if t.config.hasOnCellEdited then
             [Event.cellEdited rowIndex col.id (boolText newValue)]
           else [])
        ({ t with state := { t.state with selectedRow := rowIndex, selectedCol := colIndex } },
         events)
      else (t, [])

/-- mouse.go `HandleHeaderClick` (lines 201-226): map the display column to
the actual column; if sortable, toggle the direction on the same column or
start ascending on a new one, then sort. -/
def Table.HandleHeaderClick [Inhabited α] (t : Table α) (colIndex : Int) :
    Table α × List Event :=
  if colIndex < 0 ∨ colIndex ≥ lenI t.state.visibleColumns then (t, [])
  else
    let actualColIndex := getI t.state.visibleColumns colIndex 0
    let col := getI t.config.columns actualColIndex default
    if ¬ col.sortable then (t, [])
    else
      let s1 :=
        if t.state.sortColumn == actualColIndex then
          { t.state with sortAsc := ! t.state.sortAsc }
        else
          { t.state with sortColumn := actualColIndex, sortAsc := true }
      Table.sortData { t with state := s1 }

/-- Column-selection step of a data-cell click (mouse.go lines 69-77): map
the display column to the actual column, falling back to the first visible
column. -/
def cellClickColumn (t : Table α) (idCol : Int) : TableState :=
  if 0 ≤ idCol ∧ idCol < lenI t.state.visibleColumns then
    { t.state with selectedCol := getI t.state.visibleColumns idCol 0 }
  else if t.state.visibleColumns.length > 0 then
    { t.state with selectedCol := getI t.state.visibleColumns 0 0 }
  else t.state

/-- Selection step of a data-cell click (mouse.go lines 79-114): in
multi-select mode toggle the row's membership, in single-select mode
replace the selection and clear the multi-select set; `OnRowSelected`
fires unless re-selecting. -/
def cellClickSelect (t : Table α) (idCol dataIndex : Int) : TableState × List Event :=
  let s1 := cellClickColumn t idCol
  if t.config.allowMultiSelect then
    let s2 :=
      if s1.IsRowSelected dataIndex then s1.RemoveSelectedRow dataIndex
      else s1.AddSelectedRow dataIndex
    let events :=
      if ¬ s2.isReselecting ∧ t.config.hasOnRowSelected then
        (s2.GetSelectedRows.filter
            (fun r => decide (0 ≤ r ∧ r < lenI t.data))).map Event.rowSelected
      else []
    (s2, events)
  else
    let s2 := { s1 with selectedRow := dataIndex, selectedRows := [] }
    let events :=
      if s2.selectedRow ≥ 0 then
        if ¬ s2.isReselecting ∧ t.config.hasOnRowSelected then
          [Event.rowSelected dataIndex]
        else []
      else []
    (s2, events)

/-- mouse.go `HandleCellClick` (lines 51-127): header clicks sort; data
clicks map the display indices to data indices, update the selected column,
toggle the row in multi-select mode or replace the selection in
single-select mode (firing `OnRowSelected` unless re-selecting), then
auto-activate interactive cells. -/
def Table.HandleCellClick [Inhabited α] (t : Table α) (idRow idCol : Int) :
    Table α × List Event :=
  if idRow == 0 then Table.HandleHeaderClick t idCol
  else
    let displayRowIndex := idRow - 1
    if displayRowIndex < 0 ∨ displayRowIndex ≥ lenI t.state.visibleRows then (t, [])
    else
      let dataIndex := getI t.state.visibleRows displayRowIndex (-1)
      if dataIndex < 0 ∨ dataIndex ≥ lenI t.data then (t, [])
      else
        let selected := cellClickSelect t idCol dataIndex
        let t2 := { t with state := selected.fst }
        let activated : Table α × List Event :=
          if ¬ t2.state.isKeyboardNavigation ∧ ¬ t2.state.isReselecting then
            Table.activateInteractiveCell t2 dataIndex t2.state.selectedCol
          else (t2, [])
        (activated.fst, selected.snd ++ activated.snd)

/-- The key names the table's key handler distinguishes (keyboard.go):
Return and Enter behave identically and are a single constructor; every
other key name falls into `other`. -/
inductive Key where
  | up | down | left | right
  | pageUp | pageDown | home | endKey
  | space | enter | other
  deriving Repr, DecidableEq

/-- Model of a `fyne.Shortcut` as inspected by `HandleShortcut`: a desktop
custom shortcut with its key and Control/Super modifier bits, or any other
shortcut value. -/
inductive Shortcut where
  | custom (key : Key) (ctrl : Bool) (superMod : Bool)
  | other
  deriving Repr, DecidableEq

/-- keyboard.go `handleArrowKey`, directional step (lines 173-254): move
the selected row to the previous/next entry of `visibleRows`, or the
selected column to the previous/next entry of `visibleColumns` (columns
only outside row-select-only mode), defaulting to the first visible
row/column when the current one is not found. -/
def arrowStep (t : Table α) (direction : String) : TableState :=
  let s := t.state
  if direction = "up" then
    if s.visibleRows.length > 0 then
      let currentIdx := findPos s.visibleRows s.selectedRow
      if currentIdx > 0 then
        { s with selectedRow := getI s.visibleRows (currentIdx - 1) 0 }
      else if currentIdx < 0 ∧ s.visibleRows.length > 0 then
        { s with selectedRow := getI s.visibleRows 0 0 }
      else s
    else s
  else if direction = "down" then
    if s.visibleRows.length > 0 then
      let currentIdx := findPos s.visibleRows s.selectedRow
      if currentIdx ≥ 0 ∧ currentIdx < lenI s.visibleRows - 1 then
        { s with selectedRow := getI s.visibleRows (currentIdx + 1) 0 }
      else if currentIdx < 0 ∧ s.visibleRows.length > 0 then
        { s with selectedRow := getI s.visibleRows 0 0 }
      else s
    else s
  else if direction = "left" then
    if ¬ t.config.rowSelectOnlyMode then
      let currentDisplayIdx := findPos s.visibleColumns s.selectedCol
      if currentDisplayIdx > 0 then
        { s with selectedCol := getI s.visibleColumns (currentDisplayIdx - 1) 0 }
      else if currentDisplayIdx < 0 ∧ s.visibleColumns.length > 0 then
        { s with selectedCol := getI s.visibleColumns 0 0 }
      else s
    else s
  else if direction = "right" then
    if ¬ t.config.rowSelectOnlyMode then
      let currentDisplayIdx := findPos s.visibleColumns s.selectedCol
      if currentDisplayIdx ≥ 0 ∧ currentDisplayIdx < lenI s.visibleColumns - 1 then
        { s with selectedCol := getI s.visibleColumns (currentDisplayIdx + 1) 0 }
      else if currentDisplayIdx < 0 ∧ s.visibleColumns.length > 0 then
        { s with selectedCol := getI s.visibleColumns 0 0 }
      else s
    else s
  else s

/-- keyboard.go `handleArrowKey` (lines 134-303): with no selection,
initialize to the first visible row/column; otherwise take the directional
step. The widget `Select`/`Refresh` calls around which the keyboard
navigation flag is set and then cleared are host-toolkit UI operations, so
their net modelled effect is the cleared flag (written whenever the
selection was touched). -/
def handleArrowKey (t : Table α) (direction : String) : Table α × List Event :=
  if t.state.selectedRow < 0 then
    if t.data.length > 0 then
      let row0 :=
        if t.state.visibleRows.length > 0 then getI t.state.visibleRows 0 0 else 0
      let col0 :=
        if t.state.visibleColumns.length > 0 then getI t.state.visibleColumns 0 0
        else t.state.selectedCol
      ({ t with state := { t.state with
          selectedRow := row0, selectedCol := col0, isKeyboardNavigation := false } }, [])
    else (t, [])
  else
    let oldRow := t.state.selectedRow
    let oldCol := t.state.selectedCol
    let s1 := arrowStep t direction
    let s2 :=
      if oldRow ≠ s1.selectedRow ∨ oldCol ≠ s1.selectedCol then
        { s1 with isKeyboardNavigation := false }
      else s1
    ({ t with state := s2 }, [])

/-- keyboard.go `handlePageNavigation` (lines 306-379): with no selection,
initialize to row 0; otherwise jump by ten rows (clamped), or to the
first/last row. -/
def handlePageNavigation (t : Table α) (direction : String) : Table α × List Event :=
  if t.state.selectedRow < 0 then
    if t.data.length > 0 then
      let col0 :=
        if t.state.visibleColumns.length > 0 then getI t.state.visibleColumns 0 0
        else t.state.selectedCol
      ({ t with state := { t.state with selectedRow := 0, selectedCol := col0 } }, [])
    else (t, [])
  else
    let oldRow := t.state.selectedRow
    let pageSize : Int := 10
    let newRow :=
      if direction = "pageup" then
        let r := t.state.selectedRow - pageSize
        if r < 0 then 0 else r
      else if direction = "pagedown" then
        let r := t.state.selectedRow + pageSize
        if r ≥ lenI t.data then lenI t.data - 1 else r
      else if direction = "home" then 0
      else if direction = "end" then
        if t.data.length > 0 then lenI t.data - 1 else t.state.selectedRow
      else t.state.selectedRow
    let s1 := { t.state with selectedRow := newRow }
    let s2 :=
      if oldRow ≠ newRow then { s1 with isKeyboardNavigation := false } else s1
    ({ t with state := s2 }, [])

/-- keyboard.go `handleSpaceKeyPopup` (lines 414-446): after range,
read-only and callback-presence guards, show the popup menu when the
column offers options for the selected row. -/
def Table.handleSpaceKeyPopup [Inhabited α] (t : Table α) : Table α × List Event :=
  let rowIndex := t.state.selectedRow
  let colIndex := t.state.selectedCol
  if rowIndex < 0 ∨ rowIndex ≥ lenI t.data ∨
      colIndex < 0 ∨ colIndex ≥ lenI t.config.columns then (t, [])
  else if Table.isColumnReadOnly t colIndex then (t, [])
  else
    let col := getI t.config.columns colIndex default
    if ¬ col.popupOptions.isSome ∨ ¬ col.hasOnPopupSelected then (t, [])
    else
      let dataItem := getI t.data rowIndex default
      let options := (col.popupOptions.getD (fun _ => [])) dataItem
      if options.length = 0 then (t, [])
      else Table.showPopupMenu t rowIndex colIndex options

/-- keyboard.go `handleSpaceKeyCheckbox` (lines 449-510): after range,
read-only and callback-presence guards, toggle the checkbox value, firing
`OnCheckboxChanged` and, when configured, `OnCellEdited`, and restore the
navigation cursor to the toggled cell. -/
def Table.handleSpaceKeyCheckbox [Inhabited α] (t : Table α) : Table α × List Event :=
  let rowIndex := t.state.selectedRow
  let colIndex := t.state.selectedCol
  if rowIndex < 0 ∨ rowIndex ≥ lenI t.data ∨
      colIndex < 0 ∨ colIndex ≥ lenI t.config.columns then (t, [])
  else if Table.isColumnReadOnly t colIndex then (t, [])
  else
    let col := getI t.config.columns colIndex default
    if ¬ col.showCheckbox ∨ ¬ col.getCheckboxValue.isSome ∨
        ¬ col.hasOnCheckboxChanged then (t, [])
    else
      let dataItem := getI t.data rowIndex default
      let currentValue := (col.getCheckboxValue.getD (fun _ => false)) dataItem
      let newValue := ! currentValue
      let events := Event.checkboxChanged rowIndex newValue ::
        (if t.config.hasOnCellEdited then
           [Event.cellEdited rowIndex col.id (boolText newValue)]
         else [])
      ({ t with state := { t.state with
          selectedRow := rowIndex, selectedCol := colIndex } }, events)

/-- keyboard.go `handleKeyboardDoubleClickAction` (lines 399-411): fire the
selected column's `OnViewData` callback with action "ctrl-enter". -/
def Table.handleKeyboardDoubleClickAction [Inhabited α] (t : Table α) :
    Table α × List Event :=
  if t.state.selectedRow < 0 ∨ t.state.selectedRow ≥ lenI t.data then (t, [])
  else if t.state.selectedCol ≥ 0 ∧ t.state.selectedCol < lenI t.config.columns then
    let col := getI t.config.columns t.state.selectedCol default
    if col.hasOnViewData then
      (t, [Event.viewData "ctrl-enter" col.id t.state.selectedRow t.state.selectedCol])
    else (t, [])
  else (t, [])

/-- keyboard.go `DefaultKeyHandler.HandleKey` (lines 28-110): every key is
ignored while an edit session is active; otherwise arrows and page keys
navigate, and Space/Enter activate the selected cell (popup, then
checkbox, then inline edit, by priority). -/
def Table.HandleKey [Inhabited α] (t : Table α) (key : Key) : Table α × List Event :=
  if t.state.editingRow ≥ 0 ∧ t.state.editingCol ≥ 0 then (t, [])
  else
    match key with
    | Key.up => handleArrowKey t "up"
    | Key.down => handleArrowKey t "down"
    | Key.left => handleArrowKey t "left"
    | Key.right => handleArrowKey t "right"
    | Key.pageUp => handlePageNavigation t "pageup"
    | Key.pageDown => handlePageNavigation t "pagedown"
    | Key.home => handlePageNavigation t "home"
    | Key.endKey => handlePageNavigation t "end"
    | Key.space =>
      if t.state.selectedRow ≥ 0 ∧ t.state.selectedCol ≥ 0 then
        if t.state.selectedCol < lenI t.config.columns then
          let col := getI t.config.columns t.state.selectedCol default
          if col.popupOptions.isSome ∧ ¬ Table.isColumnReadOnly t t.state.selectedCol then
            Table.handleSpaceKeyPopup t
          else if col.showCheckbox ∧ ¬ Table.isColumnReadOnly t t.state.selectedCol then
            Table.handleSpaceKeyCheckbox t
          else if col.editable ∧ ¬ Table.isColumnReadOnly t t.state.selectedCol then
            Table.startEdit t t.state.selectedRow t.state.selectedCol
          else (t, [])
        else (t, [])
      else (t, [])
    | Key.enter =>
      if t.state.selectedRow ≥ 0 ∧ t.state.selectedCol ≥ 0 ∧
          t.state.selectedCol < lenI t.config.columns then
        let col := getI t.config.columns t.state.selectedCol default
        if col.popupOptions.isSome ∧ ¬ Table.isColumnReadOnly t t.state.selectedCol then
          Table.handleSpaceKeyPopup t
        else if col.showCheckbox ∧ ¬ Table.isColumnReadOnly t t.state.selectedCol then
          Table.handleSpaceKeyCheckbox t
        else if col.editable ∧ ¬ Table.isColumnReadOnly t t.state.selectedCol then
          Table.startEdit t t.state.selectedRow t.state.selectedCol
        else (t, [])
      else (t, [])
    | Key.other => (t, [])

/-- keyboard.go `DefaultKeyHandler.HandleShortcut` (lines 113-131): every
shortcut is ignored while an edit session is active or with no selected
row; a Ctrl/Cmd+Enter custom shortcut fires the keyboard double-click
action. -/
def Table.HandleShortcut [Inhabited α] (t : Table α) (sc : Shortcut) :
    Table α × List Event :=
  if t.state.editingRow ≥ 0 ∧ t.state.editingCol ≥ 0 then (t, [])
  else if t.state.selectedRow < 0 then (t, [])
  else
    match sc with
    | Shortcut.custom key ctrl superMod =>
      if key = Key.enter ∧ (ctrl ∨ superMod) then
        Table.handleKeyboardDoubleClickAction t
      else (t, [])
    | Shortcut.other => (t, [])

/-- The non-strict order associated with `sortData`'s `less` closure:
`sort.Slice`'s output is ordered so that `less y x` fails for `x` before
`y`, i.e. consecutive elements satisfy `sortLe`. -/
def sortLe [Inhabited α] (t : Table α) : α → α → Bool :=
  fun x y => ! Table.sortLess t y x

/-- A comparator consistent with a strict weak ordering, as the spec's
sorting properties assume: strictly-below one way is strictly-above the
other way, and the non-strict relation is transitive. -/
def ValidComparator (cmp : α → α → Int) : Prop :=
  (∀ a b, cmp a b < 0 ↔ cmp b a > 0) ∧
  (∀ a b c, cmp a b ≤ 0 → cmp b c ≤ 0 → cmp a c ≤ 0)

/-- Both selection modes populated at once: a single-select row is set and
the multi-select set is non-empty. -/
def bothSelected (s : TableState) : Prop :=
  s.selectedRow ≥ 0 ∧ s.selectedRows ≠ []

/-- Decidability of `bothSelected`, for concrete-state checks. -/
instance (s : TableState) : Decidable (bothSelected s) := by
  unfold bothSelected
  infer_instance

/-- Configuration for plain string rows: the source's reflection helpers
applied to a non-struct value return `fmt.Sprintf("%v", v)`, which for a
string row is the row itself, independent of the column id. -/
def stringRowConfig : Config String :=
  { extractFieldValue := fun s _ => s, extractFieldString := fun s _ => s }

/-- Regex engine used where a compile failure is exercised: the only
pattern ever consulted in those scenarios is `(?i)(`, which Go's
`regexp.Compile` rejects (missing closing parenthesis), hence `none`. -/
def failingRegexEngine : RegexEngine Unit :=
  { compile := fun _ => none, matchString := fun _ _ => false }

/-- Regex engine used where the regex path is never exercised (empty
filter text or plain-text mode). -/
def trivRegexEngine : RegexEngine Unit :=
  { compile := fun _ => some (), matchString := fun _ _ => true }

/-- Table with regex mode on and the non-compiling filter text `(`: one
filter column, one data row whose extracted value contains `(`. -/
def ct1 : Table String :=
  { config := { stringRowConfig with filterColumns := ["status"] },
    data := ["a(b"],
    state := { filterText := "(", filterRegex := true } }

/-- Table in multi-select state (rows set `{1}`), used against
`SetSelectedCell`. -/
def ct2 : Table String :=
  { config := stringRowConfig,
    data := ["r0", "r1"],
    state := { selectedRows := [1] } }

/-- Table with a prior selected column 2 and a single data row, used
against `SetSelectedCell` with an invalid column argument. -/
def ct3 : Table String :=
  { config := stringRowConfig,
    data := ["r0"],
    state := { selectedCol := 2 } }

/-- Table with an active depth limit (`MaxDepth = 1`) and a depth accessor
reporting depth 1 for its single row, and no filter text. -/
def ct4 : Table String :=
  { config := { stringRowConfig with maxDepth := 1, getNodeDepth := some (fun _ => 1) },
    data := ["x"] }

/-- Comparator on boolean rows: false sorts before true; consistent with a
total order. -/
def cmpBool : Bool → Bool → Int := fun a b =>
  (if a then 1 else 0) - (if b then 1 else 0)

/-- Configuration over boolean rows with one sortable column carrying
`cmpBool` as custom comparator. -/
def boolRowConfig : Config Bool :=
  { columns := [{ id := "flag", sortable := true, comparator := some cmpBool }],
    extractFieldValue := fun b _ => boolText b,
    extractFieldString := fun b _ => boolText b }

/-- Boolean-row table with the sort column set to column 0. -/
def wtSort : Table Bool :=
  { config := boolRowConfig,
    data := [true, false, true],
    state := { sortColumn := 0 } }

/-- String-row table with no filter, no depth limit and two rows. -/
def wt4 : Table String :=
  { config := stringRowConfig, data := ["a", "b"] }

/-- String-row table with a selection at (0, 1). -/
def wt7 : Table String :=
  { config := stringRowConfig,
    data := ["a"],
    state := { selectedRow := 0, selectedCol := 1 } }

/-- String-row table with one visible, editable column carrying an
`OnViewData` callback, for the edit round-trip. -/
def wt8 : Table String :=
  { config := { stringRowConfig with
      columns := [{ id := "name", editable := true, hasOnViewData := true }] },
    data := ["alice"],
    state := { visibleColumns := [0] } }

/-- String-row table with an active edit session at (0, 0). -/
def wt9 : Table String :=
  { config := { stringRowConfig with
      columns := [{ id := "name", editable := true }] },
    data := ["alice"],
    state := { visibleColumns := [0], editingRow := 0, editingCol := 0 } }

/-- Single-select string-row table with two rows and one visible column,
empty selection. -/
def wt2 : Table String :=
  { config := { stringRowConfig with
      columns := [{ id := "name" }] },
    data := ["a", "b"],
    state := { visibleColumns := [0], visibleRows := [0, 1] } }

/-! ## Helper lemmas -/

/-- Rebuilding the visible rows never touches the backing data. -/
theorem rebuildVisibleRows_data (eng : RegexEngine ρ) (t : Table α) :
    (Table.RebuildVisibleRows eng t).fst.data = t.data := rfl

/-- Rebuilding the visible rows never touches the sort column. -/
theorem rebuildVisibleRows_sortColumn (eng : RegexEngine ρ) (t : Table α) :
    (Table.RebuildVisibleRows eng t).fst.state.sortColumn = t.state.sortColumn := rfl

/-- Rebuilding the visible rows never touches the sort direction. -/
theorem rebuildVisibleRows_sortAsc (eng : RegexEngine ρ) (t : Table α) :
    (Table.RebuildVisibleRows eng t).fst.state.sortAsc = t.state.sortAsc := rfl

/-- `SetSelectedCell` never touches the backing data. -/
theorem setSelectedCell_data (t : Table α) (row col : Int) :
    (Table.SetSelectedCell t row col).fst.data = t.data := by
  unfold Table.SetSelectedCell
  split <;> rfl

/-- `SetSelectedCell` never touches the sort column. -/
theorem setSelectedCell_sortColumn (t : Table α) (row col : Int) :
    (Table.SetSelectedCell t row col).fst.state.sortColumn = t.state.sortColumn := by
  unfold Table.SetSelectedCell
  split <;> rfl

/-- `SetSelectedCell` never touches the sort direction. -/
theorem setSelectedCell_sortAsc (t : Table α) (row col : Int) :
    (Table.SetSelectedCell t row col).fst.state.sortAsc = t.state.sortAsc := by
  unfold Table.SetSelectedCell
  split <;> rfl

/-- `SetSelectedCell` never touches the multi-select set. -/
theorem setSelectedCell_selectedRows (t : Table α) (row col : Int) :
    (Table.SetSelectedCell t row col).fst.state.selectedRows = t.state.selectedRows := by
  unfold Table.SetSelectedCell
  split <;> rfl

/-- `sortData` never touches the runtime state. -/
theorem sortData_state [Inhabited α] (t : Table α) :
    (Table.sortData t).fst.state = t.state := by
  unfold Table.sortData
  split <;> rfl

/-- `sortData` never touches the configuration. -/
theorem sortData_config [Inhabited α] (t : Table α) :
    (Table.sortData t).fst.config = t.config := by
  unfold Table.sortData
  split <;> rfl

/-- From a comparator antisymmetry, failing strictly-below one way is the
non-strict comparison the other way. -/
theorem notLt_iff_le {cmp : α → α → Int}
    (h1 : ∀ a b, cmp a b < 0 ↔ cmp b a > 0) (a b : α) :
    (¬ cmp a b < 0) ↔ cmp b a ≤ 0 := by
  rw [h1 a b]
  omega

/-- The `sortLe` relation of a table with a valid comparator is total. -/
theorem sortLe_total [Inhabited α] (t : Table α)
    (h : ValidComparator (Table.effComparator t)) :
    ∀ a b, sortLe t a b || sortLe t b a := by
  intro a b
  obtain ⟨h1, _⟩ := h
  by_cases hasc : t.state.sortAsc = true
  · simp only [sortLe, Table.sortLess, hasc, if_true, Bool.or_eq_true,
      Bool.not_eq_true', decide_eq_false_iff_not]
    by_cases hab : Table.effComparator t a b < 0
    · left
      intro hba
      have := (h1 a b).mp hab
      omega
    · right
      exact hab
  · have hasc' : t.state.sortAsc = false := by
      revert hasc
      cases t.state.sortAsc <;> simp
    simp only [sortLe, Table.sortLess, hasc', if_false, Bool.or_eq_true,
      Bool.not_eq_true', decide_eq_false_iff_not, Bool.false_eq_true]
    by_cases hab : Table.effComparator t a b > 0
    · left
      intro hba
      have := (h1 b a).mpr hab
      omega
    · right
      exact hab

/-- The `sortLe` relation of a table with a valid comparator is
transitive. -/
theorem sortLe_trans [Inhabited α] (t : Table α)
    (h : ValidComparator (Table.effComparator t)) :
    ∀ a b c, sortLe t a b → sortLe t b c → sortLe t a c := by
  obtain ⟨h1, h2⟩ := h
  intro a b c hab hbc
  by_cases hasc : t.state.sortAsc = true
  · simp only [sortLe, Table.sortLess, hasc, if_true, Bool.not_eq_true',
      decide_eq_false_iff_not] at hab hbc ⊢
    rw [notLt_iff_le h1] at hab hbc ⊢
    exact h2 a b c hab hbc
  · have hasc' : t.state.sortAsc = false := by
      revert hasc
      cases t.state.sortAsc <;> simp
    simp only [sortLe, Table.sortLess, hasc', if_false, Bool.not_eq_true',
      decide_eq_false_iff_not, Bool.false_eq_true] at hab hbc ⊢
    have hab' : Table.effComparator t b a ≤ 0 := by omega
    have hbc' : Table.effComparator t c b ≤ 0 := by omega
    have := h2 c b a hbc' hab'
    omega

/-! ## Claim C7 -/

/-- C7: `SetSelectedCell` with a row below zero or at/past the data length
is rejected with an Error log and leaves the whole table — in particular
`GetSelectedCell`, both components — unchanged. -/
theorem C7_invalid_row_preserves_selection (t : Table α) (row col : Int)
    (h : row < 0 ∨ row ≥ lenI t.data) :
    Table.GetSelectedCell (Table.SetSelectedCell t row col).fst = Table.GetSelectedCell t ∧
    (Table.SetSelectedCell t row col).fst = t ∧
    Event.logError "SetSelectedCell: invalid row" ∈ (Table.SetSelectedCell t row col).snd := by
  unfold Table.SetSelectedCell
  rw [if_pos h]
  exact ⟨rfl, rfl, by simp⟩

/-- Witness for C7 at the concrete table `wt7` with row `-1`. -/
theorem C7_witness :
    ((-1 : Int) < 0 ∨ (-1 : Int) ≥ lenI wt7.data) ∧
    Table.GetSelectedCell (Table.SetSelectedCell wt7 (-1) 5).fst =
      Table.GetSelectedCell wt7 :=
  ⟨Or.inl (by decide),
   (C7_invalid_row_preserves_selection wt7 (-1) 5 (Or.inl (by decide))).1⟩

/-! ## Claim C9 -/

/-- C9: while an edit session is active, `HandleKey` and `HandleShortcut`
return the table unchanged and fire no callback and no log. -/
theorem C9_keyboard_suppressed_while_editing [Inhabited α] (t : Table α)
    (key : Key) (sc : Shortcut)
    (h : t.state.editingRow ≥ 0 ∧ t.state.editingCol ≥ 0) :
    Table.HandleKey t key = (t, []) ∧ Table.HandleShortcut t sc = (t, []) := by
  constructor
  · unfold Table.HandleKey
    rw [if_pos h]
  · unfold Table.HandleShortcut
    rw [if_pos h]

/-- Witness for C9 at the concrete editing table `wt9`. -/
theorem C9_witness :
    (wt9.state.editingRow ≥ 0 ∧ wt9.state.editingCol ≥ 0) ∧
    Table.HandleKey wt9 Key.down = (wt9, []) ∧
    Table.HandleShortcut wt9 (Shortcut.custom Key.enter true false) = (wt9, []) := by
  refine ⟨⟨by decide, by decide⟩, ?_⟩
  exact C9_keyboard_suppressed_while_editing wt9 Key.down
    (Shortcut.custom Key.enter true false) ⟨by decide, by decide⟩

/-! ## Claim C10 -/

/-- C10: the widget-level `ClearFilter` resets the filter text and regex
flag (so `GetFilter` yields `("", false)`) but leaves the case-sensitivity
flag untouched, while the state-level `TableState.ClearFilter` also resets
the case flag. -/
theorem C10_clearFilter_keeps_case_flag (eng : RegexEngine ρ) (t : Table α)
    (s : TableState) :
    Table.GetFilter (Table.ClearFilter eng t).fst = ("", false) ∧
    (Table.ClearFilter eng t).fst.state.filterCaseSensitive =
      t.state.filterCaseSensitive ∧
    (TableState.ClearFilter s).filterCaseSensitive = false :=
  ⟨rfl, rfl, rfl⟩

/-! ## Claim C2: counterexample -/

/-- C2 is false as stated: from the multi-select state `{1}`, the
operation `SetSelectedCell 0 0` (a valid row) stores the single-select row
without clearing the multi-select set, leaving both modes populated. -/
theorem C2_counterexample :
    (Table.SetSelectedCell ct2 0 0).fst.state.selectedRow = 0 ∧
    (Table.SetSelectedCell ct2 0 0).fst.state.selectedRows = [1] ∧
    bothSelected (Table.SetSelectedCell ct2 0 0).fst.state := by
  refine ⟨by decide, by decide, by decide⟩

/-- Header clicks never touch the single-select row. -/
theorem handleHeaderClick_selectedRow [Inhabited α] (t : Table α) (c : Int) :
    (Table.HandleHeaderClick t c).fst.state.selectedRow = t.state.selectedRow := by
  unfold Table.HandleHeaderClick
  split
  · rfl
  · dsimp only
    split
    · rfl
    · rw [sortData_state]
      split <;> rfl

/-- Header clicks never touch the multi-select set. -/
theorem handleHeaderClick_selectedRows [Inhabited α] (t : Table α) (c : Int) :
    (Table.HandleHeaderClick t c).fst.state.selectedRows = t.state.selectedRows := by
  unfold Table.HandleHeaderClick
  split
  · rfl
  · dsimp only
    split
    · rfl
    · rw [sortData_state]
      split <;> rfl

/-- Interactive-cell activation never touches the multi-select set. -/
theorem activate_selectedRows [Inhabited α] (t : Table α) (r c : Int) :
    (Table.activateInteractiveCell t r c).fst.state.selectedRows =
      t.state.selectedRows := by
  unfold Table.activateInteractiveCell Table.showPopupMenu
  split
  · rfl
  · split
    · rfl
    · split
      · rfl
      · dsimp only
        split
        next res heq =>
          split at heq
          · split at heq
            · cases heq
              split <;> rfl
            · exact Option.noConfusion heq
          · exact Option.noConfusion heq
        next heq =>
          split <;> rfl

/-- In single-select mode, a cell click leaves the multi-select set
empty. -/
theorem cellClickSelect_single_selectedRows (t : Table α) (idCol dataIndex : Int)
    (hmode : t.config.allowMultiSelect = false) :
    (cellClickSelect t idCol dataIndex).fst.selectedRows = [] := by
  unfold cellClickSelect
  rw [hmode]
  simp

/-- C2 corrected: entering multi-select via `SetSelectedRows` or
`AddSelectedRow` clears the single-select row, and a cell click in
single-select mode leaves the two modes exclusive; `SetSelectedCell`,
however, does not clear the multi-select set (see the counterexample), so
the mutual exclusion does not extend to it. -/
theorem C2_selection_exclusivity [Inhabited α] (s : TableState) (rows : List Int)
    (row : Int) (t : Table α) (idRow idCol : Int)
    (hs : ¬ bothSelected s)
    (hmode : t.config.allowMultiSelect = false)
    (hinv : ¬ bothSelected t.state) :
    ¬ bothSelected (TableState.SetSelectedRows s rows) ∧
    ¬ bothSelected (TableState.AddSelectedRow s row) ∧
    ¬ bothSelected (Table.HandleCellClick t idRow idCol).fst.state := by
  refine ⟨?_, ?_, ?_⟩
  · intro hb
    exact (by omega : ¬ ((-1 : Int) ≥ 0)) hb.1
  · intro hb
    unfold TableState.AddSelectedRow at hb
    by_cases hrow : row ≥ 0
    · rw [if_pos hrow] at hb
      exact (by omega : ¬ ((-1 : Int) ≥ 0)) hb.1
    · rw [if_neg hrow] at hb
      exact hs hb
  · unfold Table.HandleCellClick
    split
    · intro hb
      exact hinv ⟨handleHeaderClick_selectedRow t idCol ▸ hb.1,
                  handleHeaderClick_selectedRows t idCol ▸ hb.2⟩
    · dsimp only
      split
      · exact hinv
      · split
        · exact hinv
        · split
          · intro hb
            exact hb.2 ((activate_selectedRows _ _ _).trans
              (cellClickSelect_single_selectedRows t idCol _ hmode))
          · intro hb
            exact hb.2 (cellClickSelect_single_selectedRows t idCol _ hmode)

/-- Witness for the corrected C2: concrete state, rows and the
single-select table `wt2` with a click on cell (1, 0). -/
theorem C2_witness :
    ¬ bothSelected ({ selectedRow := 3 } : TableState) ∧
    wt2.config.allowMultiSelect = false ∧
    ¬ bothSelected wt2.state ∧
    ¬ bothSelected (TableState.SetSelectedRows { selectedRow := 3 } [0, 1]) ∧
    ¬ bothSelected (Table.HandleCellClick wt2 1 0).fst.state := by
  refine ⟨by decide, rfl, by decide, ?_, ?_⟩
  · exact (C2_selection_exclusivity ({ selectedRow := 3 } : TableState) [0, 1] 0
      wt2 1 0 (by decide) rfl (by decide)).1
  · exact (C2_selection_exclusivity ({ selectedRow := 3 } : TableState) [0, 1] 0
      wt2 1 0 (by decide) rfl (by decide)).2.2

end FCTable

namespace FCTable

/-! ## Claim C3: counterexample -/

/-- C3 is false as stated: `SetSelectedCell` with the negative column `-5`
(and a valid row) is not rejected — it overwrites the previously selected
column 2 with `-5`. -/
theorem C3_counterexample :
    (Table.SetSelectedCell ct3 0 (-5)).fst.state.selectedCol = -5 ∧
    ct3.state.selectedCol = 2 := by
  refine ⟨by decide, by decide⟩

/-- C3 corrected: the row argument of `SetSelectedCell` is validated — an
out-of-range row is rejected with an Error log and no state change — but
the column argument is not: with a valid row, any column value, negative
or out of range, is stored as the selected column. -/
theorem C3_row_validated_column_not (t : Table α) (row col : Int) :
    ((row < 0 ∨ row ≥ lenI t.data) →
      (Table.SetSelectedCell t row col).fst = t ∧
      Event.logError "SetSelectedCell: invalid row" ∈
        (Table.SetSelectedCell t row col).snd) ∧
    ((0 ≤ row ∧ row < lenI t.data) →
      (Table.SetSelectedCell t row col).fst.state.selectedRow = row ∧
      (Table.SetSelectedCell t row col).fst.state.selectedCol = col) := by
  constructor
  · intro h
    unfold Table.SetSelectedCell
    rw [if_pos h]
    exact ⟨rfl, by simp⟩
  · intro h
    unfold Table.SetSelectedCell
    rw [if_neg (by omega)]
    exact ⟨rfl, rfl⟩

/-- Witness for the corrected C3 at `ct3`: row 5 is rejected, and with the
valid row 0 the column `-7` is stored unvalidated. -/
theorem C3_witness :
    ((Table.SetSelectedCell ct3 5 0).fst = ct3 ∧
      Event.logError "SetSelectedCell: invalid row" ∈
        (Table.SetSelectedCell ct3 5 0).snd) ∧
    ((Table.SetSelectedCell ct3 0 (-7)).fst.state.selectedRow = 0 ∧
      (Table.SetSelectedCell ct3 0 (-7)).fst.state.selectedCol = -7) :=
  ⟨(C3_row_validated_column_not ct3 5 0).1 (Or.inr (by decide)),
   (C3_row_validated_column_not ct3 0 (-7)).2 ⟨by decide, by decide⟩⟩

/-! ## Claim C1 -/

/-- With no compiled regex, the row filter ignores the regex flag: it runs
the plain substring branch either way. -/
theorem rowPasses_none_regexOff (eng : RegexEngine ρ) (cfg : Config α)
    (st : TableState) (item : α) :
    rowPasses eng cfg { st with filterRegex := false } none item =
      rowPasses eng cfg st none item := by
  unfold rowPasses textMatch plainMatch
  rfl

/-- C1 is false as stated: at `ct1` (regex mode on, filter text `(`, which
`regexp.Compile` rejects), `RebuildVisibleRows` does not treat the filter
as matching nothing — the row whose value contains `(` passes, so
`visibleRows` is non-empty — although the compile error is logged. -/
theorem C1_counterexample :
    (Table.RebuildVisibleRows failingRegexEngine ct1).fst.state.visibleRows = [0] ∧
    (Table.RebuildVisibleRows failingRegexEngine ct1).fst.state.visibleRows ≠ [] ∧
    failingRegexEngine.compile (effectivePattern ct1.state) = none ∧
    (Table.RebuildVisibleRows failingRegexEngine ct1).snd =
      [Event.logError "Invalid regex filter"] := by
  refine ⟨by decide, by decide, rfl, rfl⟩

/-- C1 corrected: when the regex filter text does not compile, the error
is logged (not raised) and `RebuildVisibleRows` falls back to plain
substring matching of the raw filter text — it behaves exactly as with
regex mode off — rather than matching nothing. -/
theorem C1_invalid_regex_falls_back_to_substring (eng : RegexEngine ρ) (t : Table α)
    (hne : t.state.filterText ≠ "") (hre : t.state.filterRegex = true)
    (hc : eng.compile (effectivePattern t.state) = none) :
    (Table.RebuildVisibleRows eng t).fst.state.visibleRows =
      (Table.RebuildVisibleRows eng
        { t with state := { t.state with filterRegex := false } }).fst.state.visibleRows ∧
    Event.logError "Invalid regex filter" ∈ (Table.RebuildVisibleRows eng t).snd := by
  have h1 : compileFilter eng t.state =
      (none, [Event.logError "Invalid regex filter"]) := by
    unfold compileFilter
    rw [if_pos ⟨hne, hre⟩, hc]
  have h2 : compileFilter eng { t.state with filterRegex := false } = (none, []) := by
    unfold compileFilter
    rw [if_neg]
    simp
  constructor
  · simp only [Table.RebuildVisibleRows, h1, h2, rowPasses_none_regexOff]
  · simp only [Table.RebuildVisibleRows, h1]
    simp

/-- Witness for the corrected C1 at `ct1` with the failing engine. -/
theorem C1_witness :
    ct1.state.filterText ≠ "" ∧ ct1.state.filterRegex = true ∧
    failingRegexEngine.compile (effectivePattern ct1.state) = none ∧
    Event.logError "Invalid regex filter" ∈
      (Table.RebuildVisibleRows failingRegexEngine ct1).snd :=
  ⟨by decide, rfl, rfl,
   (C1_invalid_regex_falls_back_to_substring failingRegexEngine ct1
      (by decide) rfl rfl).2⟩

/-! ## Claim C4 -/

/-- C4 is false as stated: with the depth-limited configuration `ct4`
(`MaxDepth = 1`, depth accessor returning 1) and an empty filter text,
`RebuildVisibleRows` yields no visible rows although the dataset has one
row. -/
theorem C4_counterexample :
    ct4.state.filterText = "" ∧
    (Table.RebuildVisibleRows trivRegexEngine ct4).fst.state.visibleRows = [] ∧
    ct4.data.length = 1 := by
  refine ⟨rfl, by decide, rfl⟩

/-- C4 corrected: with an empty filter text, `RebuildVisibleRows` yields
all indices of the dataset in order, for every configuration in which the
tree-depth filter is inactive (`MaxDepth ≤ 0` or no depth accessor). -/
theorem C4_empty_filter_yields_all_rows (eng : RegexEngine ρ) (t : Table α)
    (hf : t.state.filterText = "")
    (hd : t.config.maxDepth ≤ 0 ∨ t.config.getNodeDepth = none) :
    (Table.RebuildVisibleRows eng t).fst.state.visibleRows =
      (List.range t.data.length).map Int.ofNat := by
  have hpred : ∀ (c : Option ρ) (item : α),
      rowPasses eng t.config t.state c item = true := by
    intro c item
    unfold rowPasses
    rw [hf]
    simp only [ne_eq, not_true_eq_false, false_and, if_false, Bool.true_and]
    rcases hd with hd | hd
    · rw [if_neg (by omega)]
    · simp [hd]
  unfold Table.RebuildVisibleRows
  simp only [hpred, List.filter_true]
  rw [← List.enum_map_fst t.data, List.map_map]
  rfl

/-! ## Claim C6 -/

/-- C6: with a comparator consistent with a strict weak ordering, sorting
twice with the same column and direction is idempotent — the second
`sortData` leaves the data order of the first unchanged. -/
theorem C6_sortData_idempotent [Inhabited α] (t : Table α)
    (h : ValidComparator (Table.effComparator t)) :
    (Table.sortData (Table.sortData t).fst).fst.data =
      (Table.sortData t).fst.data := by
  by_cases hcol : t.state.sortColumn < 0 ∨ t.state.sortColumn ≥ lenI t.config.columns
  · have hstep : Table.sortData t = (t, []) := by
      unfold Table.sortData
      rw [if_pos hcol]
    rw [hstep, hstep]
  · have hstep : Table.sortData t =
        ({ t with data := sortSlice t.data (Table.sortLess t) }, []) := by
      unfold Table.sortData
      rw [if_neg hcol]
    rw [hstep]
    unfold Table.sortData
    dsimp only
    rw [if_neg hcol]
    dsimp only
    unfold sortSlice
    exact List.mergeSort_of_sorted
      (List.sorted_mergeSort (sortLe_trans t h) (sortLe_total t h) t.data)

/-- Witness for C6 at the boolean table `wtSort` with its valid
comparator. -/
theorem C6_witness :
    ValidComparator (Table.effComparator wtSort) ∧
    (Table.sortData (Table.sortData wtSort).fst).fst.data =
      (Table.sortData wtSort).fst.data := by
  have hv : ValidComparator (Table.effComparator wtSort) := ⟨by decide, by decide⟩
  exact ⟨hv, C6_sortData_idempotent wtSort hv⟩

/-! ## Claim C5 -/

/-- C5: `SetData` with a sort column set (and in range) re-applies the
current sort to the new data: the resulting backing data is a permutation
of the new data, ordered by the current column comparator and direction,
and the sort column and direction themselves are unchanged. -/
theorem C5_setData_reapplies_sort [Inhabited α] (eng : RegexEngine ρ) (t : Table α)
    (d : List α)
    (hcol : t.state.sortColumn ≥ 0 ∧ t.state.sortColumn < lenI t.config.columns)
    (h : ValidComparator (Table.effComparator t)) :
    (Table.SetData eng t d).fst.state.sortColumn = t.state.sortColumn ∧
    (Table.SetData eng t d).fst.state.sortAsc = t.state.sortAsc ∧
    List.Perm (Table.SetData eng t d).fst.data d ∧
    List.Pairwise (fun x y => sortLe t x y = true)
      (Table.SetData eng t d).fst.data := by
  have hguard : ¬ (t.state.sortColumn < 0 ∨ t.state.sortColumn ≥ lenI t.config.columns) := by
    omega
  have hsd : Table.sortData { t with data := d } =
      ({ t with data := sortSlice d (Table.sortLess t) }, []) := by
    unfold Table.sortData
    dsimp only
    rw [if_neg hguard]
    rfl
  have hdata : (Table.SetData eng t d).fst.data = sortSlice d (Table.sortLess t) := by
    unfold Table.SetData
    dsimp only
    rw [if_pos hcol, hsd]
    dsimp only
    split
    · rw [setSelectedCell_data, rebuildVisibleRows_data]
    · rw [rebuildVisibleRows_data]
  have hsc : (Table.SetData eng t d).fst.state.sortColumn = t.state.sortColumn := by
    unfold Table.SetData
    dsimp only
    rw [if_pos hcol, hsd]
    dsimp only
    split
    · rw [setSelectedCell_sortColumn, rebuildVisibleRows_sortColumn]
    · rw [rebuildVisibleRows_sortColumn]
  have hsa : (Table.SetData eng t d).fst.state.sortAsc = t.state.sortAsc := by
    unfold Table.SetData
    dsimp only
    rw [if_pos hcol, hsd]
    dsimp only
    split
    · rw [setSelectedCell_sortAsc, rebuildVisibleRows_sortAsc]
    · rw [rebuildVisibleRows_sortAsc]
  refine ⟨hsc, hsa, ?_, ?_⟩
  · rw [hdata]
    unfold sortSlice
    exact List.mergeSort_perm d _
  · rw [hdata]
    unfold sortSlice
    exact List.sorted_mergeSort (sortLe_trans t h) (sortLe_total t h) d

/-- Witness for C5 at the boolean table `wtSort`, reloading the data
`[true, false]`. -/
theorem C5_witness :
    (wtSort.state.sortColumn ≥ 0 ∧
      wtSort.state.sortColumn < lenI wtSort.config.columns) ∧
    ValidComparator (Table.effComparator wtSort) ∧
    List.Perm (Table.SetData trivRegexEngine wtSort [true, false]).fst.data
      [true, false] := by
  have hv : ValidComparator (Table.effComparator wtSort) := ⟨by decide, by decide⟩
  exact ⟨⟨by decide, by decide⟩, hv,
    (C5_setData_reapplies_sort trivRegexEngine wtSort [true, false]
      ⟨by decide, by decide⟩ hv).2.2.1⟩

/-! ## Claim C8 -/

/-- C8: for a valid, visible, editable cell with an `OnViewData` callback,
`startEdit` followed immediately by `cancelEdit` leaves the backing data
unmodified and the edit session inactive; the combined event trace is
exactly the view-action notification tagged "escape" — in particular no
cell-edited notification fires. -/
theorem C8_startEdit_cancelEdit_roundtrip [Inhabited α] (t : Table α) (r c : Int)
    (hr : 0 ≤ r ∧ r < lenI t.data)
    (hc : 0 ≤ c ∧ c < lenI t.config.columns)
    (hvis : 0 ≤ findPos t.state.visibleColumns c)
    (hedit : (getI t.config.columns c default).editable = true)
    (hviewdata : (getI t.config.columns c default).hasOnViewData = true) :
    (Table.cancelEdit (Table.startEdit t r c).fst).fst.data = t.data ∧
    (Table.cancelEdit (Table.startEdit t r c).fst).fst.state.editingRow = -1 ∧
    (Table.cancelEdit (Table.startEdit t r c).fst).fst.state.editingCol = -1 ∧
    (Table.startEdit t r c).snd ++ (Table.cancelEdit (Table.startEdit t r c).fst).snd =
      [Event.viewData "escape" (getI t.config.columns c default).id r c] ∧
    (∀ row colID v, Event.cellEdited row colID v ∉
      (Table.startEdit t r c).snd ++ (Table.cancelEdit (Table.startEdit t r c).fst).snd) := by
  have hstart : Table.startEdit t r c =
      ({ t with state := { t.state with
          editingRow := r, editingCol := c,
          editingValue := t.config.extractFieldValue (getI t.data r default)
            (getI t.config.columns c default).id } }, []) := by
    unfold Table.startEdit
    dsimp only
    rw [if_neg (by omega)]
  have hcancel : Table.cancelEdit (Table.startEdit t r c).fst =
      ({ t with state := { t.state with
            selectedRow := r, selectedCol := c,
            editingRow := -1, editingCol := -1, editingValue := "" } },
        [Event.viewData "escape" (getI t.config.columns c default).id r c]) := by
    rw [hstart]
    unfold Table.cancelEdit Table.SetSelectedCell
    dsimp only
    rw [if_neg (show ¬ (r < 0 ∨ r ≥ lenI t.data) by omega)]
    rw [if_pos hc]
    rw [if_pos (show (getI t.config.columns c default).hasOnViewData = true ∧
        0 ≤ r ∧ r < lenI t.data from ⟨hviewdata, hr.1, hr.2⟩)]
    rfl
  rw [hcancel, hstart]
  refine ⟨rfl, rfl, rfl, rfl, ?_⟩
  intro row colID v
  simp

/-- Witness for C8 at the table `wt8`, editing cell (0, 0). -/
theorem C8_witness :
    (0 ≤ (0 : Int) ∧ (0 : Int) < lenI wt8.data) ∧
    0 ≤ findPos wt8.state.visibleColumns 0 ∧
    (getI wt8.config.columns 0 default).editable = true ∧
    (getI wt8.config.columns 0 default).hasOnViewData = true ∧
    (Table.cancelEdit (Table.startEdit wt8 0 0).fst).fst.data = wt8.data ∧
    (Table.startEdit wt8 0 0).snd ++
        (Table.cancelEdit (Table.startEdit wt8 0 0).fst).snd =
      [Event.viewData "escape" (getI wt8.config.columns 0 default).id 0 0] := by
  have h := C8_startEdit_cancelEdit_roundtrip wt8 0 0 ⟨by decide, by decide⟩
    ⟨by decide, by decide⟩ (by decide) (by decide) (by decide)
  exact ⟨⟨by decide, by decide⟩, by decide, by decide, by decide, h.1, h.2.2.2.1⟩

/-- Witness for the corrected C4 at the two-row table `wt4`. -/
theorem C4_witness :
    wt4.state.filterText = "" ∧
    (wt4.config.maxDepth ≤ 0 ∨ wt4.config.getNodeDepth = none) ∧
    (Table.RebuildVisibleRows trivRegexEngine wt4).fst.state.visibleRows =
      (List.range wt4.data.length).map Int.ofNat :=
  ⟨rfl, Or.inl (by decide),
   C4_empty_filter_yields_all_rows trivRegexEngine wt4 rfl (Or.inl (by decide))⟩

end FCTable
